import Mathlib

/-!
Verification of the event deduplication and time-window query core of the
linkkibot repository (src/db_services.py).  The Python code is shallowly
embedded: JSON-like payloads become an inductive type, the PostgreSQL events
table becomes a list of rows, and the SQL statements of save_event_if_new /
get_events_end become Lean functions over that state.
-/

set_option maxHeartbeats 1000000

namespace DbServices

/-! ## JSON values

Python event records are open dicts of JSON-like values
(ev : Dict[str, Any]).  JSON numbers are modelled as integers, which covers
every value the identity / time logic touches. -/

inductive Json : Type where
  | null : Json
  | bool (b : Bool) : Json
  | num (n : Int) : Json
  | str (s : String) : Json
  | arr (elems : List Json) : Json
  | obj (fields : List (String × Json)) : Json

/-- An event record: a Python dict of JSON-like values, with its key order. -/
def Record : Type := List (String × Json)

/-! ## Canonical serialization: json.dumps(ev, sort_keys=True, ensure_ascii=False)

CPython's json encoder with ensure_ascii=False escapes the quote, the
backslash and the control characters below 0x20 (with short forms for
\b \t \n \f \r) and leaves every other character, non-ASCII included, as is.
Default separators are a comma-space between items and a colon-space after
keys.  sort_keys=True sorts the keys of every mapping by the code-point
order of Python str, which coincides with Lean's String order. -/

def encJsonChar (c : Char) : String :=
  if c = '"' then "\\\""
  else if c = '\\' then "\\\\"
  else if c = Char.ofNat 8 then "\\b"
  else if c = Char.ofNat 9 then "\\t"
  else if c = Char.ofNat 10 then "\\n"
  else if c = Char.ofNat 12 then "\\f"
  else if c = Char.ofNat 13 then "\\r"
  else if c.toNat < 32 then
    "\\u00" ++ String.mk [Nat.digitChar (c.toNat / 16), Nat.digitChar (c.toNat % 16)]
  else String.mk [c]

/-- JSON string literal: quote, escape each character, quote. -/
def encJsonString (s : String) : String :=
  "\"" ++ String.join (s.data.map encJsonChar) ++ "\""

/-- Comparison used by sort_keys=True: key order, values not consulted. -/
def fieldLe (p q : String × String) : Bool := decide (p.1 ≤ q.1)

/-- Rendering of one already-serialized field: key, colon-space, value. -/
def renderField (p : String × String) : String :=
  encJsonString p.1 ++ ": " ++ p.2

mutual

/-- Models json.dumps(v, sort_keys=True, ensure_ascii=False) with the default
separators.  Object fields have their values serialized in place and are then
sorted by key; since the comparison only reads keys, this equals serializing
after sorting, as CPython does. -/
def dumpJson : Json → String
  | .null => "null"
  | .bool true => "true"
  | .bool false => "false"
  | .num n => toString n
  | .str s => encJsonString s
  | .arr l => "[" ++ String.intercalate ", " (dumpElems l) ++ "]"
  | .obj kvs =>
      "\x7b" ++
        String.intercalate ", " (((dumpPairs kvs).mergeSort fieldLe).map renderField) ++
      "\x7d"

/-- Serialization of the elements of a JSON array, in order. -/
def dumpElems : List Json → List String
  | [] => []
  | j :: rest => dumpJson j :: dumpElems rest

/-- Serialization of the values of an object, keys kept alongside. -/
def dumpPairs : List (String × Json) → List (String × String)
  | [] => []
  | (k, v) :: rest => (k, dumpJson v) :: dumpPairs rest

end

/-- Canonical serialization of a whole record (a top-level JSON object). -/
def dumpRecord (ev : Record) : String := dumpJson (.obj ev)

/-! ## UTF-8 encoding

s.encode("utf-8"): bytes are Nat values below 256. -/

/-- UTF-8 bytes of one code point. -/
def utf8Char (c : Char) : List Nat :=
  let cp := c.toNat
  if cp < 128 then [cp]
  else if cp < 2048 then [192 + cp / 64, 128 + cp % 64]
  else if cp < 65536 then [224 + cp / 4096, 128 + cp / 64 % 64, 128 + cp % 64]
  else [240 + cp / 262144, 128 + cp / 4096 % 64, 128 + cp / 64 % 64, 128 + cp % 64]

/-- UTF-8 bytes of a string. -/
def utf8Bytes (s : String) : List Nat := s.data.flatMap utf8Char

/-! ## SHA-256 (hashlib.sha256, FIPS 180-4)

32-bit words are Nat values reduced mod 2^32; bytes are Nat values below
256.  The message is padded with a 0x80 byte, zeros to 56 mod 64, and the
big-endian 64-bit bit length; each 64-byte block runs the 64-round
compression function over the eight-word state. -/

/-- Reduction to a 32-bit word. -/
def w32 (n : Nat) : Nat := n % 4294967296

/-- Rotation of a 32-bit word right by n bit positions. -/
def rotr32 (n x : Nat) : Nat := w32 ((x >>> n) ||| (x <<< (32 - n)))

def shaCh (x y z : Nat) : Nat := (x &&& y) ^^^ ((x ^^^ 4294967295) &&& z)

def shaMaj (x y z : Nat) : Nat := (x &&& y) ^^^ (x &&& z) ^^^ (y &&& z)

def bigSigma0 (x : Nat) : Nat := rotr32 2 x ^^^ rotr32 13 x ^^^ rotr32 22 x

def bigSigma1 (x : Nat) : Nat := rotr32 6 x ^^^ rotr32 11 x ^^^ rotr32 25 x

def smallSigma0 (x : Nat) : Nat := rotr32 7 x ^^^ rotr32 18 x ^^^ (x >>> 3)

def smallSigma1 (x : Nat) : Nat := rotr32 17 x ^^^ rotr32 19 x ^^^ (x >>> 10)

/-- The 64 round constants, in decimal. -/
def shaK : List Nat :=
  [1116352408, 1899447441, 3049323471, 3921009573, 961987163,
   1508970993, 2453635748, 2870763221, 3624381080, 310598401,
   607225278, 1426881987, 1925078388, 2162078206, 2614888103,
   3248222580, 3835390401, 4022224774, 264347078, 604807628,
   770255983, 1249150122, 1555081692, 1996064986, 2554220882,
   2821834349, 2952996808, 3210313671, 3336571891, 3584528711,
   113926993, 338241895, 666307205, 773529912, 1294757372,
   1396182291, 1695183700, 1986661051, 2177026350, 2456956037,
   2730485921, 2820302411, 3259730800, 3345764771, 3516065817,
   3600352804, 4094571909, 275423344, 430227734, 506948616,
   659060556, 883997877, 958139571, 1322822218, 1537002063,
   1747873779, 1955562222, 2024104815, 2227730452, 2361852424,
   2428436474, 2756734187, 3204031479, 3329325298]

/-- The eight-word working state (a, b, c, d, e, f, g, h). -/
structure Hash8 : Type where
  a : Nat
  b : Nat
  c : Nat
  d : Nat
  e : Nat
  f : Nat
  g : Nat
  h : Nat

/-- The initial hash value H(0), in decimal. -/
def shaH0 : Hash8 :=
  ⟨1779033703, 3144134277, 1013904242, 2773480762,
   1359893119, 2600822924, 528734635, 1541459225⟩

/-- Big-endian bytes of a number, fixed width. -/
def bytesBE : Nat → Nat → List Nat
  | 0, _ => []
  | k + 1, n => bytesBE k (n / 256) ++ [n % 256]

/-- SHA-256 padding: 0x80, zeros to 56 mod 64, 64-bit big-endian bit length. -/
def shaPad (msg : List Nat) : List Nat :=
  msg ++ 128 :: List.replicate ((119 - msg.length % 64) % 64) 0
      ++ bytesBE 8 (8 * msg.length % 18446744073709551616)

/-- Big-endian 32-bit words of a 64-byte block. -/
def wordsOf (block : List Nat) : List Nat :=
  (List.toChunks 4 block).map (fun b => b.foldl (fun acc x => acc * 256 + x) 0)

/-- Value of a word list read at index i (zero out of range). -/
def getW (w : List Nat) (i : Nat) : Nat := w.getD i 0

/-- Message-schedule extension: appends k further words W(t). -/
def scheduleAux : List Nat → Nat → List Nat
  | w, 0 => w
  | w, k + 1 =>
      scheduleAux
        (w ++ [w32 (smallSigma1 (getW w (w.length - 2)) + getW w (w.length - 7)
                  + smallSigma0 (getW w (w.length - 15)) + getW w (w.length - 16))]) k

/-- The 64-entry message schedule of one block. -/
def schedule (block : List Nat) : List Nat := scheduleAux (wordsOf block) 48

/-- One compression round with constant k and schedule word w. -/
def shaRound (st : Hash8) (kw : Nat × Nat) : Hash8 :=
  let t1 := w32 (st.h + bigSigma1 st.e + shaCh st.e st.f st.g + kw.1 + kw.2)
  let t2 := w32 (bigSigma0 st.a + shaMaj st.a st.b st.c)
  ⟨w32 (t1 + t2), st.a, st.b, st.c, w32 (st.d + t1), st.e, st.f, st.g⟩

/-- Processing of one 64-byte block: 64 rounds, then the feed-forward sums. -/
def processBlock (h0 : Hash8) (block : List Nat) : Hash8 :=
  let st := (shaK.zip (schedule block)).foldl shaRound h0
  ⟨w32 (h0.a + st.a), w32 (h0.b + st.b), w32 (h0.c + st.c), w32 (h0.d + st.d),
   w32 (h0.e + st.e), w32 (h0.f + st.f), w32 (h0.g + st.g), w32 (h0.h + st.h)⟩

/-- Final state after all padded blocks. -/
def sha256Words (msg : List Nat) : Hash8 :=
  (List.toChunks 64 (shaPad msg)).foldl processBlock shaH0

/-- The digest words in output order. -/
def digestWordList (st : Hash8) : List Nat :=
  [st.a, st.b, st.c, st.d, st.e, st.f, st.g, st.h]

/-- Big-endian value of a word list (each entry reduced to 32 bits). -/
def wordListVal (ws : List Nat) : Nat :=
  ws.foldl (fun acc w => acc * 4294967296 + w32 w) 0

/-- The 256-bit digest as a number. -/
def sha256Nat (msg : List Nat) : Nat := wordListVal (digestWordList (sha256Words msg))

/-- Lowercase hex rendering padded to 64 digits: hexdigest(). -/
def natToHex64 (n : Nat) : String :=
  String.mk (List.replicate (64 - (Nat.toDigits 16 n).length) '0' ++ Nat.toDigits 16 n)

/-- DB._event_hash: sha256 hex digest of the UTF-8 bytes of
json.dumps(ev, sort_keys=True, ensure_ascii=False). -/
def eventHash (ev : Record) : String :=
  natToHex64 (sha256Nat (utf8Bytes (dumpRecord ev)))

/-! ## Identity key (save_event_if_new, lines 55-60)

for k in ("id", "event_id", "url"): v = ev.get(k); if v: event_id = str(v); break -/

/-- Python truthiness of a JSON-like value. -/
def truthy : Json → Bool
  | .null => false
  | .bool b => b
  | .num n => n != 0
  | .str s => !s.isEmpty
  | .arr l => !l.isEmpty
  | .obj l => !l.isEmpty

/-- A single quote character, for Python repr rendering. -/
def squote : String := String.mk [Char.ofNat 39]

mutual

/-- Models Python repr() on JSON-like container values (reached by str() only
for dict/list values).  Strings are single-quoted with backslash and quote
escaped; CPython's quote-choice heuristic for strings containing quotes is
approximated by always single-quoting.  No identity field in the repository
carries a container value, so nothing downstream depends on this corner. -/
def pyRepr : Json → String
  | .null => "None"
  | .bool true => "True"
  | .bool false => "False"
  | .num n => toString n
  | .str s =>
      squote ++
        String.join (s.data.map fun c =>
          if c = '\\' then "\\\\"
          else if c = Char.ofNat 39 then "\\" ++ squote
          else String.mk [c]) ++
      squote
  | .arr l => "[" ++ String.intercalate ", " (pyReprElems l) ++ "]"
  | .obj kvs => "\x7b" ++ String.intercalate ", " (pyReprPairs kvs) ++ "\x7d"

def pyReprElems : List Json → List String
  | [] => []
  | j :: rest => pyRepr j :: pyReprElems rest

def pyReprPairs : List (String × Json) → List String
  | [] => []
  | (k, v) :: rest => (pyRepr (.str k) ++ ": " ++ pyRepr v) :: pyReprPairs rest

end

/-- Python str() of a JSON-like value. -/
def pyStr : Json → String
  | .null => "None"
  | .bool true => "True"
  | .bool false => "False"
  | .num n => toString n
  | .str s => s
  | .arr l => pyRepr (.arr l)
  | .obj kvs => pyRepr (.obj kvs)

/-- ev.get(k) followed by the truthiness test: the value when present and
truthy, none otherwise (absent and present-but-falsy are both skipped). -/
def truthyVal (ev : Record) (k : String) : Option Json :=
  match ev.lookup k with
  | some v => if truthy v then some v else none
  | none => none

/-- The event_id derived in save_event_if_new: str() of the first truthy
value among the keys id, event_id, url, in that order; None otherwise. -/
def identityKey (ev : Record) : Option String :=
  match truthyVal ev "id" with
  | some v => some (pyStr v)
  | none =>
    match truthyVal ev "event_id" with
    | some v => some (pyStr v)
    | none =>
      match truthyVal ev "url" with
      | some v => some (pyStr v)
      | none => none

/-! ## The events table and save_event_if_new

One row of the events table (ensure_tables): nullable event_id, mandatory
event_hash, jsonb payload, created_at.  The SERIAL surrogate id plays no
role in any claim and is omitted; RETURNING id is reflected in the boolean
result.  The two partial unique indexes become the conflict predicate. -/

structure Row : Type where
  event_id : Option String
  event_hash : String
  payload : Record
  created_at : Int

structure DBState : Type where
  rows : List Row

/-- Violation of either unique index by an incoming (event_id, event_hash):
events_event_hash_idx always applies; events_event_id_idx only WHERE
event_id IS NOT NULL, so a null key never collides. -/
def rowConflicts (r : Row) (eid : Option String) (h : String) : Bool :=
  r.event_hash == h ||
    (match eid, r.event_id with
     | some a, some b => a == b
     | _, _ => false)

def conflicts (db : DBState) (eid : Option String) (h : String) : Bool :=
  db.rows.any (fun r => rowConflicts r eid h)

/-- Transport and storage failures that cur.execute may raise. -/
inductive StorageErr : Type where
  | connectionLost : StorageErr
  | unrelatedConstraint : StorageErr
  | serializationFailure : StorageErr

/-- DB.save_event_if_new.  execErr injects a failure of cur.execute: the
except branch rolls the transaction back (state unchanged) and re-raises.
With no failure, INSERT .. ON CONFLICT DO NOTHING RETURNING id inserts and
returns a row exactly when neither unique index is violated; bool(row) is
the result and a conflict is never an exception. -/
def saveEventIfNew (execErr : Option StorageErr) (db : DBState) (ev : Record)
    (now : Int) : Except StorageErr Bool × DBState :=
  let eid := identityKey ev
  let h := eventHash ev
  match execErr with
  | some e => (.error e, db)
  | none =>
      if conflicts db eid h then (.ok false, db)
      else (.ok true, ⟨db.rows ++ [⟨eid, h, ev, now⟩]⟩)

/-! ## Timestamps

Timestamps are seconds since the Unix epoch (Int).  parseTs models the
PostgreSQL cast text::timestamptz on the ISO-8601 shapes the feed produces
(YYYY-MM-DD, optionally T-or-space HH:MM[:SS], optionally Z or a sign HH[:MM]
offset), under a UTC session time zone; every other shape fails, which in
PostgreSQL raises and in the model is the none outcome feeding the raise
flag.  parseDMY models to_timestamp(text, 'DD/MM/YYYY'), which validates
field ranges and yields midnight UTC. -/

def isLeap (y : Nat) : Bool := y % 4 == 0 && (y % 100 != 0 || y % 400 == 0)

def daysInMonth (y m : Nat) : Nat :=
  if m = 2 then (if isLeap y then 29 else 28)
  else if m = 4 || m = 6 || m = 9 || m = 11 then 30
  else 31

/-- Days from 1970-01-01 of a civil date (valid, year at least 1). -/
def daysFromCivil (y m d : Nat) : Int :=
  let y2 := if m ≤ 2 then y - 1 else y
  let era := y2 / 400
  let yoe := y2 % 400
  let doy := (153 * (if 2 < m then m - 3 else m + 9) + 2) / 5 + (d - 1)
  let doe := yoe * 365 + yoe / 4 - yoe / 100 + doy
  (↑(era * 146097 + doe) : Int) - 719468

/-- Decimal value of a digit run. -/
def digitsVal (l : List Char) : Nat := l.foldl (fun a c => a * 10 + (c.toNat - 48)) 0

/-- Time-zone suffix: empty (session UTC), Z, or sign HH[:MM].  Result is the
offset east of UTC in seconds. -/
def parseZone (l : List Char) : Option Int :=
  match l with
  | [] => some 0
  | ['Z'] => some 0
  | c :: r =>
    if c = '+' || c = '-' then
      let (hs, r1) := r.span Char.isDigit
      if hs.length = 0 || 2 < hs.length then none else
      let sign : Int := if c = '+' then 1 else -1
      let h := digitsVal hs
      match r1 with
      | [] => if 15 < h then none else some (sign * (↑(h * 3600) : Int))
      | ':' :: r2 =>
        let (mins, r3) := r2.span Char.isDigit
        if mins.length ≠ 2 then none else
        if r3 ≠ [] then none else
        let mi := digitsVal mins
        if 15 < h || 59 < mi then none else some (sign * (↑(h * 3600 + mi * 60) : Int))
      | _ => none
    else none

/-- HH:MM[:SS] with optional zone; seconds of day shifted to UTC. -/
def parseTimeOfDay (l : List Char) : Option Int :=
  let (hs, r1) := l.span Char.isDigit
  if hs.length = 0 || 2 < hs.length then none else
  match r1 with
  | ':' :: r2 =>
    let (mins, r3) := r2.span Char.isDigit
    if mins.length ≠ 2 then none else
    let h := digitsVal hs
    let mi := digitsVal mins
    if 23 < h || 59 < mi then none else
    match r3 with
    | ':' :: r4 =>
        let (ss, r5) := r4.span Char.isDigit
        if ss.length ≠ 2 then none else
        let sec := digitsVal ss
        if 59 < sec then none else
        (parseZone r5).map (fun off => (↑(h * 3600 + mi * 60 + sec) : Int) - off)
    | r => (parseZone r).map (fun off => (↑(h * 3600 + mi * 60) : Int) - off)
  | _ => none

/-- The date part YYYY-M[M]-D[D], then an optional time of day. -/
def parseTsChars (l : List Char) : Option Int :=
  let (ys, r1) := l.span Char.isDigit
  if ys.length ≠ 4 then none else
  match r1 with
  | '-' :: r2 =>
    let (ms, r3) := r2.span Char.isDigit
    if ms.length = 0 || 2 < ms.length then none else
    match r3 with
    | '-' :: r4 =>
      let (ds, r5) := r4.span Char.isDigit
      if ds.length = 0 || 2 < ds.length then none else
      let y := digitsVal ys
      let mo := digitsVal ms
      let d := digitsVal ds
      if y < 1 || mo < 1 || 12 < mo || d < 1 || daysInMonth y mo < d then none else
      let base : Int := 86400 * daysFromCivil y mo d
      match r5 with
      | [] => some base
      | c :: r6 =>
          if c = 'T' || c = ' ' then (parseTimeOfDay r6).map (fun tod => base + tod)
          else none
    | _ => none
  | _ => none

def parseTs (s : String) : Option Int := parseTsChars s.data

/-- to_timestamp(s, 'DD/MM/YYYY'): day-month-year, validated, midnight UTC. -/
def parseDMY (s : String) : Option Int :=
  match s.data with
  | [d1, d2, _, m1, m2, _, y1, y2, y3, y4] =>
    let d := digitsVal [d1, d2]
    let mo := digitsVal [m1, m2]
    let y := digitsVal [y1, y2, y3, y4]
    if y < 1 || mo < 1 || 12 < mo || d < 1 || daysInMonth y mo < d then none
    else some (86400 * daysFromCivil y mo d)
  | _ => none

/-- The SQL regex match (payload->>'date') ~ '^\d\x7b4\x7d-'. -/
def matchIsoLead (s : String) : Bool :=
  match s.data with
  | a :: b :: c :: d :: e :: _ =>
      a.isDigit && b.isDigit && c.isDigit && d.isDigit && e = '-'
  | _ => false

/-- The SQL regex match (payload->>'date') ~ '^\d\x7b2\x7d/\d\x7b2\x7d/\d\x7b4\x7d$'. -/
def matchDMY (s : String) : Bool :=
  match s.data with
  | [a, b, c, d, e, f, g, h, i, j] =>
      a.isDigit && b.isDigit && c = '/' && d.isDigit && e.isDigit && f = '/' &&
        g.isDigit && h.isDigit && i.isDigit && j.isDigit
  | _ => false

/-! ## get_events_end

The advanced SQL statement filters on three BETWEEN disjuncts (the
start_iso8601 cast, the CASE over the date field, created_at) and orders by
the COALESCE of the same three expressions.  A present but uncastable
start_iso8601, or a date that matches a pattern but fails its parse, raises
in PostgreSQL; the bare except in get_events_end then reruns the plain
created_at-only query.  payload->>key yields SQL NULL both for an absent key
and a JSON null. -/

/-- payload->>key as text: none for absent key or JSON null, the bare string
for strings, the literal for scalars, the JSON text for containers. -/
def getText (ev : Record) (k : String) : Option String :=
  match ev.lookup k with
  | none => none
  | some .null => none
  | some (.str s) => some s
  | some (.bool true) => some "true"
  | some (.bool false) => some "false"
  | some (.num n) => some (toString n)
  | some (.arr l) => some (dumpJson (.arr l))
  | some (.obj kvs) => some (dumpJson (.obj kvs))

/-- (payload->>'start_iso8601')::timestamptz when it succeeds. -/
def isoCand (ev : Record) : Option Int := (getText ev "start_iso8601").bind parseTs

/-- Whether the start_iso8601 cast raises: text present but not castable. -/
def isoRaises (ev : Record) : Bool :=
  match getText ev "start_iso8601" with
  | some s => (parseTs s).isNone
  | none => false

/-- The CASE over payload->>'date': ISO-leading strings are cast, strict
DD/MM/YYYY strings go through to_timestamp, anything else is NULL. -/
def dateCand (ev : Record) : Option Int :=
  match getText ev "date" with
  | none => none
  | some s =>
      if matchIsoLead s then parseTs s
      else if matchDMY s then parseDMY s
      else none

/-- Whether the date CASE raises: a branch was selected and its parse fails. -/
def dateRaises (ev : Record) : Bool :=
  match getText ev "date" with
  | none => false
  | some s =>
      if matchIsoLead s then (parseTs s).isNone
      else if matchDMY s then (parseDMY s).isNone
      else false

/-- Whether evaluating the advanced statement on this row raises. -/
def rowRaises (r : Row) : Bool := isoRaises r.payload || dateRaises r.payload

/-- COALESCE((payload->>'start_iso8601')::timestamptz, CASE ..., created_at),
the event_time used for ordering. -/
def effTime (r : Row) : Int :=
  match isoCand r.payload with
  | some t => t
  | none =>
    match dateCand r.payload with
    | some t => t
    | none => r.created_at

/-- value BETWEEN s AND e for a nullable value (NULL never matches). -/
def inWindow (o : Option Int) (s e : Int) : Bool :=
  match o with
  | some t => decide (s ≤ t) && decide (t ≤ e)
  | none => false

/-- The WHERE clause: any of the three time interpretations in [s, e]. -/
def matchesWindow (s e : Int) (r : Row) : Bool :=
  inWindow (isoCand r.payload) s e || inWindow (dateCand r.payload) s e ||
    (decide (s ≤ r.created_at) && decide (r.created_at ≤ e))

def effLe (r1 r2 : Row) : Bool := decide (effTime r1 ≤ effTime r2)

def createdLe (r1 r2 : Row) : Bool := decide (r1.created_at ≤ r2.created_at)

/-- The advanced statement: filter on the WHERE clause, ORDER BY event_time
ASC, return the payloads. -/
def advancedQuery (db : DBState) (s e : Int) : List Record :=
  (((db.rows.filter (matchesWindow s e)).mergeSort effLe).map Row.payload)

/-- The except-branch statement: created_at BETWEEN s AND e, ORDER BY
created_at ASC. -/
def fallbackQuery (db : DBState) (s e : Int) : List Record :=
  (((db.rows.filter fun r => decide (s ≤ r.created_at) && decide (r.created_at ≤ e)).mergeSort
      createdLe).map Row.payload)

/-- Failures the backend can raise during a query. -/
inductive QueryErr : Type where
  | unsupportedExpr : QueryErr
  | connectionLost : QueryErr

/-- DB.get_events_end with injected backend failures.  advErr is a transport
failure of the first cur.execute; a cast raise on some row fails that execute
too.  The bare except then runs the created_at-only statement, whose own
failure fbErr propagates.  The row post-processing loop is the identity here:
psycopg2 already returns jsonb payloads as dicts, so json.loads is never
applied. -/
def getEventsEndE (advErr fbErr : Option QueryErr) (db : DBState) (s e : Int) :
    Except QueryErr (List Record) :=
  if advErr.isSome || db.rows.any rowRaises then
    match fbErr with
    | some er => .error er
    | none => .ok (fallbackQuery db s e)
  else .ok (advancedQuery db s e)

/-- DB.get_events_end under a healthy backend. -/
def getEventsEnd (db : DBState) (s e : Int) : List Record :=
  match getEventsEndE none none db s e with
  | .ok l => l
  | .error _ => []

/-- DB.get_events_delta: end = start + delta, then get_events_end. -/
def getEventsDelta (db : DBState) (start delta : Int) : List Record :=
  getEventsEnd db start (start + delta)

/-! ## Helper lemmas -/

/-- A record with a present truthy id yields that id (stringified). -/
lemma identityKey_id (ev : Record) (v : Json) (h1 : ev.lookup "id" = some v)
    (h2 : truthy v = true) : identityKey ev = some (pyStr v) := by
  simp [identityKey, truthyVal, h1, h2]

/-- Unfolding of the conflict test for one row against the two indexes. -/
lemma rowConflicts_iff (r : Row) (eid : Option String) (h : String) :
    rowConflicts r eid h = true ↔
      (r.event_hash = h ∨ ∃ k, eid = some k ∧ r.event_id = some k) := by
  rcases eid with _ | a <;> rcases hr : r.event_id with _ | b <;>
    simp [rowConflicts, hr, beq_iff_eq]
  exact or_congr Iff.rfl eq_comm

/-- Characterization of the duplicate test: either unique index is violated
by some existing row; the event_id index only when the key is non-null. -/
lemma conflicts_iff (db : DBState) (eid : Option String) (h : String) :
    conflicts db eid h = true ↔
      ∃ r ∈ db.rows, r.event_hash = h ∨ ∃ k, eid = some k ∧ r.event_id = some k := by
  simp only [conflicts, List.any_eq_true, rowConflicts_iff]

/-- A fresh record leaves no row carrying its hash. -/
lemma countP_hash_zero (db : DBState) (eid : Option String) (h : String)
    (hfresh : conflicts db eid h = false) :
    db.rows.countP (fun r => r.event_hash == h) = 0 := by
  rw [List.countP_eq_zero]
  intro r hr
  intro hcon
  have : conflicts db eid h = true := by
    rw [conflicts_iff]
    exact ⟨r, hr, Or.inl (by simpa [beq_iff_eq] using hcon)⟩
  rw [this] at hfresh
  exact Bool.noConfusion hfresh

/-! ## Claims -/

/-- C1: inserting a record twice in a row on a healthy backend returns true
then false, leaves exactly one row carrying the record's fingerprint, and the
duplicate outcome is the ok-false value, not an error. -/
theorem c1_insert_idempotent (db : DBState) (ev : Record) (t1 t2 : Int)
    (hfresh : conflicts db (identityKey ev) (eventHash ev) = false) :
    ∃ db1 : DBState,
      saveEventIfNew none db ev t1 = (.ok true, db1) ∧
      saveEventIfNew none db1 ev t2 = (.ok false, db1) ∧
      db1.rows.countP (fun r => r.event_hash == eventHash ev) = 1 := by
  refine ⟨⟨db.rows ++ [⟨identityKey ev, eventHash ev, ev, t1⟩]⟩, ?_, ?_, ?_⟩
  · simp [saveEventIfNew, hfresh]
  · have hc : conflicts ⟨db.rows ++ [⟨identityKey ev, eventHash ev, ev, t1⟩]⟩
        (identityKey ev) (eventHash ev) = true := by
      rw [conflicts_iff]
      exact ⟨⟨identityKey ev, eventHash ev, ev, t1⟩, by simp, Or.inl rfl⟩
    simp [saveEventIfNew, hc]
  · rw [List.countP_append, countP_hash_zero db _ _ hfresh]
    simp [List.countP_cons]

/-- C1 witness: a concrete fresh record on an empty store. -/
theorem c1_witness :
    ∃ db1 : DbServices.DBState,
      saveEventIfNew none ⟨[]⟩ [("id", Json.str "A")] 1 = (.ok true, db1) ∧
      saveEventIfNew none db1 [("id", Json.str "A")] 2 = (.ok false, db1) ∧
      db1.rows.countP (fun r => r.event_hash == eventHash [("id", Json.str "A")]) = 1 :=
  c1_insert_idempotent ⟨[]⟩ [("id", Json.str "A")] 1 2 rfl

/-- C2: two records sharing the same truthy id value: after inserting the
first into a fresh store, inserting the second returns false and leaves the
store unchanged; the duplicate test fires on either the fingerprint index or
the identity index, the latter only for non-null keys. -/
theorem c2_identity_collision (db : DBState) (ev1 ev2 : Record) (v : Json)
    (t1 t2 : Int)
    (h1 : ev1.lookup "id" = some v) (htr : truthy v = true)
    (h2 : ev2.lookup "id" = some v)
    (hfresh : conflicts db (identityKey ev1) (eventHash ev1) = false) :
    (∃ db1 : DBState,
      saveEventIfNew none db ev1 t1 = (.ok true, db1) ∧
      saveEventIfNew none db1 ev2 t2 = (.ok false, db1)) ∧
    (∀ (db2 : DBState) (eid : Option String) (h : String),
      conflicts db2 eid h = true ↔
        ∃ r ∈ db2.rows, r.event_hash = h ∨ ∃ k, eid = some k ∧ r.event_id = some k) := by
  refine ⟨⟨⟨db.rows ++ [⟨identityKey ev1, eventHash ev1, ev1, t1⟩]⟩, ?_, ?_⟩,
    conflicts_iff⟩
  · simp [saveEventIfNew, hfresh]
  · have hk1 : identityKey ev1 = some (pyStr v) := identityKey_id ev1 v h1 htr
    have hk2 : identityKey ev2 = some (pyStr v) := identityKey_id ev2 v h2 htr
    have hc : conflicts ⟨db.rows ++ [⟨identityKey ev1, eventHash ev1, ev1, t1⟩]⟩
        (identityKey ev2) (eventHash ev2) = true := by
      rw [conflicts_iff]
      exact ⟨⟨identityKey ev1, eventHash ev1, ev1, t1⟩, by simp,
        Or.inr ⟨pyStr v, hk2, hk1⟩⟩
    simp [saveEventIfNew, hc]

/-- C2 witness: same id "A", different payloads, on an empty store. -/
theorem c2_witness :
    ∃ db1 : DbServices.DBState,
      saveEventIfNew none ⟨[]⟩ [("id", Json.str "A"), ("x", Json.num 1)] 1 =
        (.ok true, db1) ∧
      saveEventIfNew none db1 [("id", Json.str "A"), ("x", Json.num 2)] 2 =
        (.ok false, db1) :=
  (c2_identity_collision ⟨[]⟩ [("id", Json.str "A"), ("x", Json.num 1)]
    [("id", Json.str "A"), ("x", Json.num 2)] (Json.str "A") 1 2 rfl rfl rfl rfl).1

/-- C4: the identity key is str() of the first truthy value among the keys
id, event_id, url in that priority order, and null when every candidate is
absent or falsy. -/
theorem c4_identity_priority :
    (∀ (ev : Record) (v : Json), ev.lookup "id" = some v → truthy v = true →
        identityKey ev = some (pyStr v)) ∧
    (∀ (ev : Record) (v : Json), truthyVal ev "id" = none →
        ev.lookup "event_id" = some v → truthy v = true →
        identityKey ev = some (pyStr v)) ∧
    (∀ (ev : Record) (v : Json), truthyVal ev "id" = none →
        truthyVal ev "event_id" = none →
        ev.lookup "url" = some v → truthy v = true →
        identityKey ev = some (pyStr v)) ∧
    (∀ ev : Record, truthyVal ev "id" = none → truthyVal ev "event_id" = none →
        truthyVal ev "url" = none → identityKey ev = none) := by
  refine ⟨identityKey_id, ?_, ?_, ?_⟩
  · intro ev v h0 h1 h2
    unfold identityKey
    rw [h0]
    simp [truthyVal, h1, h2]
  · intro ev v h0 h0e h1 h2
    unfold identityKey
    rw [h0, h0e]
    simp [truthyVal, h1, h2]
  · intro ev h0 h0e h0u
    simp [identityKey, h0, h0e, h0u]

/-- C4 witness: the three concrete priority scenarios of the spec. -/
theorem c4_witness :
    identityKey [("id", Json.str "A"), ("url", Json.str "B")] = some "A" ∧
    identityKey [("url", Json.str "B")] = some "B" ∧
    identityKey [("id", Json.str ""), ("event_id", Json.null),
      ("url", Json.str "C")] = some "C" :=
  ⟨c4_identity_priority.1 _ (Json.str "A") rfl rfl,
   c4_identity_priority.2.2.1 _ (Json.str "B") rfl rfl rfl rfl,
   c4_identity_priority.2.2.1 _ (Json.str "C") rfl rfl rfl rfl⟩

/-- C9: an injected storage failure during the insert rolls back (the state
component is the original store) and surfaces as an error, which is a
different value from every boolean outcome. -/
theorem c9_storage_failure (e : StorageErr) (db : DBState) (ev : Record)
    (t : Int) :
    saveEventIfNew (some e) db ev t = (.error e, db) ∧
    ∀ b : Bool, (Except.error e : Except StorageErr Bool) ≠ .ok b :=
  ⟨rfl, fun _ h => Except.noConfusion h⟩

/-- C10: the delta-based query is definitionally the end-based query with
end = start + delta. -/
theorem c10_delta_end_equiv (db : DBState) (start delta : Int) :
    getEventsDelta db start delta = getEventsEnd db start (start + delta) := rfl

/-! ## Window query claims -/

/-- With no raising row, get_events_end runs the advanced statement. -/
lemma getEventsEnd_eq_advanced (db : DBState) (s e : Int)
    (hok : db.rows.any rowRaises = false) :
    getEventsEnd db s e = advancedQuery db s e := by
  simp [getEventsEnd, getEventsEndE, hok]

lemma effLe_trans : ∀ a b c : Row, effLe a b = true → effLe b c = true →
    effLe a c = true := by
  intro a b c h1 h2
  simp only [effLe, decide_eq_true_eq] at h1 h2 ⊢
  exact le_trans h1 h2

lemma effLe_total : ∀ a b : Row, (effLe a b || effLe b a) = true := by
  intro a b
  simp only [effLe, Bool.or_eq_true, decide_eq_true_eq]
  exact le_total _ _

lemma createdLe_trans : ∀ a b c : Row, createdLe a b = true → createdLe b c = true →
    createdLe a c = true := by
  intro a b c h1 h2
  simp only [createdLe, decide_eq_true_eq] at h1 h2 ⊢
  exact le_trans h1 h2

lemma createdLe_total : ∀ a b : Row, (createdLe a b || createdLe b a) = true := by
  intro a b
  simp only [createdLe, Bool.or_eq_true, decide_eq_true_eq]
  exact le_total _ _

/-- C5: under a healthy backend with castable rows, a payload is returned by
get_events_end iff some stored row carries it and at least one of the three
time interpretations (start_iso8601 cast, date CASE, created_at) lies in the
inclusive window. -/
theorem c5_window_inclusive (db : DBState) (s e : Int) (p : Record)
    (hok : db.rows.any rowRaises = false) :
    p ∈ getEventsEnd db s e ↔
      ∃ r ∈ db.rows, r.payload = p ∧
        (inWindow (isoCand r.payload) s e = true ∨
         inWindow (dateCand r.payload) s e = true ∨
         (s ≤ r.created_at ∧ r.created_at ≤ e)) := by
  rw [getEventsEnd_eq_advanced db s e hok]
  simp only [advancedQuery, List.mem_map, List.mem_mergeSort, List.mem_filter,
    matchesWindow, Bool.or_eq_true, Bool.and_eq_true, decide_eq_true_eq]
  constructor
  · rintro ⟨r, ⟨hr, hm⟩, hp⟩
    exact ⟨r, hr, hp, or_assoc.mp hm⟩
  · rintro ⟨r, hr, hp, hm⟩
    exact ⟨r, ⟨hr, or_assoc.mpr hm⟩, hp⟩

/-- C5 witness: the spec's concrete instance.  A row whose start_iso8601 is
2024-03-01T10:00:00+02:00 (stored mid-February) is returned for the window
covering 1 March 2024 and excluded for the window covering 2 March 2024. -/
theorem c5_witness :
    ([("start_iso8601", Json.str "2024-03-01T10:00:00+02:00")] : Record) ∈
      getEventsEnd
        ⟨[⟨some "A", "h0", [("start_iso8601", Json.str "2024-03-01T10:00:00+02:00")],
           1707955200⟩]⟩ 1709251200 1709337540 ∧
    ([("start_iso8601", Json.str "2024-03-01T10:00:00+02:00")] : Record) ∉
      getEventsEnd
        ⟨[⟨some "A", "h0", [("start_iso8601", Json.str "2024-03-01T10:00:00+02:00")],
           1707955200⟩]⟩ 1709337600 1709423940 := by
  constructor
  · exact (c5_window_inclusive _ 1709251200 1709337540 _ (by decide)).mpr
      ⟨⟨some "A", "h0", [("start_iso8601", Json.str "2024-03-01T10:00:00+02:00")],
         1707955200⟩, List.Mem.head _, rfl, Or.inl (by decide)⟩
  · intro hmem
    obtain ⟨r, hr, hpay, hdisj⟩ :=
      (c5_window_inclusive _ 1709337600 1709423940 _ (by decide)).mp hmem
    rcases List.mem_singleton.mp hr with rfl
    rcases hdisj with h | h | h
    · exact absurd h (by decide)
    · exact absurd h (by decide)
    · exact absurd h (by decide)

/-- C6: under a healthy backend the result is the payload image of the
matching rows sorted ascending by event_time, event_time is sorted along
that list, and event_time is the COALESCE priority: the start_iso8601 cast
first, then the date CASE, then created_at. -/
theorem c6_result_ordering (db : DBState) (s e : Int)
    (hok : db.rows.any rowRaises = false) :
    getEventsEnd db s e =
      ((db.rows.filter (matchesWindow s e)).mergeSort effLe).map Row.payload ∧
    List.Sorted (fun r1 r2 : Row => effTime r1 ≤ effTime r2)
      ((db.rows.filter (matchesWindow s e)).mergeSort effLe) ∧
    (∀ (r : Row) (t : Int), isoCand r.payload = some t → effTime r = t) ∧
    (∀ (r : Row) (t : Int), isoCand r.payload = none → dateCand r.payload = some t →
        effTime r = t) ∧
    (∀ r : Row, isoCand r.payload = none → dateCand r.payload = none →
        effTime r = r.created_at) := by
  refine ⟨getEventsEnd_eq_advanced db s e hok, ?_, ?_, ?_, ?_⟩
  · have hp := @List.sorted_mergeSort Row effLe effLe_trans effLe_total
      (db.rows.filter (matchesWindow s e))
    exact hp.imp (fun h => by simpa [effLe, decide_eq_true_eq] using h)
  · intro r t h
    simp [effTime, h]
  · intro r t h1 h2
    simp [effTime, h1, h2]
  · intro r h1 h2
    simp [effTime, h1, h2]

/-- C6 witness: a two-row store where the iso-derived time of the later row
precedes the created_at-derived time of the earlier one. -/
theorem c6_witness :
    List.Sorted (fun r1 r2 : Row => effTime r1 ≤ effTime r2)
      (((DBState.mk
          [⟨none, "h1", [], 100⟩,
           ⟨none, "h2", [("start_iso8601", Json.str "1970-01-01T00:00:10Z")],
             200⟩]).rows.filter (matchesWindow 0 1000)).mergeSort effLe) :=
  (c6_result_ordering
    ⟨[⟨none, "h1", [], 100⟩,
      ⟨none, "h2", [("start_iso8601", Json.str "1970-01-01T00:00:10Z")], 200⟩]⟩
    0 1000 (by decide)).2.1

/-- C7: the tier-2 date interpretation: an ISO-leading string goes through
the timestamptz cast, otherwise a strict DD/MM/YYYY string goes through
to_timestamp with day-month-year order (01/03/2024 is 1 March 2024), and a
string matching neither pattern yields no candidate and never raises, so
resolution falls to the next tier (created_at when start_iso8601 is absent). -/
theorem c7_date_patterns :
    (∀ (ev : Record) (s : String), getText ev "date" = some s →
        matchIsoLead s = true → dateCand ev = parseTs s) ∧
    (∀ (ev : Record) (s : String), getText ev "date" = some s →
        matchIsoLead s = false → matchDMY s = true → dateCand ev = parseDMY s) ∧
    (∀ (ev : Record) (s : String), getText ev "date" = some s →
        matchIsoLead s = false → matchDMY s = false →
        dateCand ev = none ∧ dateRaises ev = false) ∧
    (parseDMY "01/03/2024" = some 1709251200 ∧
     parseTs "2024-03-01T00:00:00Z" = some 1709251200) ∧
    (∀ r : Row, getText r.payload "start_iso8601" = none →
        getText r.payload "date" = some "01/03/2024" → effTime r = 1709251200) := by
  have hdmy : parseDMY "01/03/2024" = some 1709251200 := by decide
  have hm1 : matchIsoLead "01/03/2024" = false := by decide
  have hm2 : matchDMY "01/03/2024" = true := by decide
  refine ⟨?_, ?_, ?_, ⟨hdmy, by decide⟩, ?_⟩
  · intro ev s hs hm
    simp [dateCand, hs, hm]
  · intro ev s hs h1 h2
    simp [dateCand, hs, h1, h2]
  · intro ev s hs h1 h2
    exact ⟨by simp [dateCand, hs, h1, h2], by simp [dateRaises, hs, h1, h2]⟩
  · intro r h1 h2
    simp [effTime, isoCand, h1, dateCand, h2, hm1, hm2, hdmy]

/-- C7 witness: the three pattern branches and the spec's date fallback. -/
theorem c7_witness :
    dateCand [("date", Json.str "2024-03-05")] = parseTs "2024-03-05" ∧
    dateCand [("date", Json.str "01/03/2024")] = parseDMY "01/03/2024" ∧
    (dateCand [("date", Json.str "next friday")] = none ∧
     dateRaises [("date", Json.str "next friday")] = false) ∧
    effTime ⟨none, "h", [("date", Json.str "01/03/2024")], 999⟩ = 1709251200 :=
  ⟨c7_date_patterns.1 _ "2024-03-05" rfl (by decide),
   c7_date_patterns.2.1 _ "01/03/2024" rfl (by decide) (by decide),
   c7_date_patterns.2.2.1 _ "next friday" rfl (by decide) (by decide),
   c7_date_patterns.2.2.2.2 _ rfl rfl⟩

/-- C8 counterexample: the except around the advanced statement is a bare
catch-all, so a failure that is not the unsupported-expression one (a lost
connection, say) is also swallowed and answered with the degraded query
instead of propagating. -/
theorem c8_counterexample :
    ¬ (∀ (er : QueryErr) (db : DBState) (s e : Int),
        er ≠ QueryErr.unsupportedExpr →
        getEventsEndE (some er) none db s e = .error er) := by
  intro hcl
  have h := hcl .connectionLost ⟨[]⟩ 0 0 (fun hc => QueryErr.noConfusion hc)
  have h2 : getEventsEndE (some .connectionLost) none ⟨[]⟩ 0 0 = .ok [] := by
    simp [getEventsEndE, fallbackQuery]
  rw [h2] at h
  exact Except.noConfusion h

/-- C8 amended: ANY failure of the advanced statement (injected transport
failure or a cast raise on a row) is caught and answered with the
created_at-only query, which filters and orders strictly by created_at; a
failure of that degraded retry propagates; with no failure the advanced
result is returned. -/
theorem c8_degraded_mode :
    (∀ (er : QueryErr) (db : DBState) (s e : Int),
        getEventsEndE (some er) none db s e = .ok (fallbackQuery db s e)) ∧
    (∀ (db : DBState) (s e : Int), db.rows.any rowRaises = true →
        getEventsEndE none none db s e = .ok (fallbackQuery db s e)) ∧
    (∀ (er er2 : QueryErr) (db : DBState) (s e : Int),
        getEventsEndE (some er) (some er2) db s e = .error er2) ∧
    (∀ (db : DBState) (s e : Int), db.rows.any rowRaises = false →
        getEventsEndE none none db s e = .ok (advancedQuery db s e)) ∧
    (∀ (db : DBState) (s e : Int),
        List.Sorted (fun r1 r2 : Row => r1.created_at ≤ r2.created_at)
          ((db.rows.filter fun r =>
              decide (s ≤ r.created_at) && decide (r.created_at ≤ e)).mergeSort
            createdLe)) := by
  refine ⟨?_, ?_, ?_, ?_, ?_⟩
  · intro er db s e
    simp [getEventsEndE]
  · intro db s e h
    simp [getEventsEndE, h]
  · intro er er2 db s e
    simp [getEventsEndE]
  · intro db s e h
    simp [getEventsEndE, h]
  · intro db s e
    have hp := @List.sorted_mergeSort Row createdLe createdLe_trans createdLe_total
      (db.rows.filter fun r => decide (s ≤ r.created_at) && decide (r.created_at ≤ e))
    exact hp.imp (fun h => by simpa [createdLe, decide_eq_true_eq] using h)

/-- C8 witness: a store holding a row whose start_iso8601 text cannot be
cast; the advanced statement raises and the degraded result is returned. -/
theorem c8_witness :
    getEventsEndE none none
      ⟨[⟨none, "h", [("start_iso8601", Json.str "not-a-time")], 50⟩]⟩ 0 100 =
      .ok (fallbackQuery
        ⟨[⟨none, "h", [("start_iso8601", Json.str "not-a-time")], 50⟩]⟩ 0 100) :=
  c8_degraded_mode.2.1 _ 0 100 (by decide)

/-! ## Fingerprint determinism (C3)

The canonical serialization is invariant under reordering of the record's
entries (distinct keys assumed, as in a Python dict), so the fingerprint is
too.  The converse direction claimed by the spec, that fingerprint equality
forces byte-identical canonical serializations, fails for any function into
256-bit digests: there are more records than digests. -/

lemma fieldLe_trans : ∀ a b c : String × String, fieldLe a b = true →
    fieldLe b c = true → fieldLe a c = true := by
  intro a b c h1 h2
  simp only [fieldLe, decide_eq_true_eq] at h1 h2 ⊢
  exact le_trans h1 h2

lemma fieldLe_total : ∀ a b : String × String, (fieldLe a b || fieldLe b a) = true := by
  intro a b
  simp only [fieldLe, Bool.or_eq_true, decide_eq_true_eq]
  exact le_total _ _

lemma dumpPairs_eq_map : ∀ l : List (String × Json),
    dumpPairs l = l.map (fun p => (p.1, dumpJson p.2)) := by
  intro l
  induction l with
  | nil => rfl
  | cons p t ih =>
    cases p
    simp [dumpPairs, ih]

/-- Two permuted pair lists with the same duplicate-free key sequence are
equal: the entry carrying each key is unique. -/
lemma eq_of_perm_of_map_fst_eq {α β : Type} :
    ∀ {l1 l2 : List (α × β)}, l1.Perm l2 → (l1.map Prod.fst).Nodup →
      l1.map Prod.fst = l2.map Prod.fst → l1 = l2 := by
  intro l1
  induction l1 with
  | nil =>
    intro l2 hp _ _
    exact hp.nil_eq
  | cons p t1 ih =>
    intro l2 hp hnd hmap
    cases l2 with
    | nil => exact absurd hp.length_eq (by simp)
    | cons q t2 =>
      simp only [List.map_cons] at hmap
      injection hmap with hk htl
      have hpq : p = q := by
        by_contra hne
        have hpin : p ∈ q :: t2 := hp.subset (List.mem_cons_self p t1)
        rcases List.mem_cons.mp hpin with h | h
        · exact hne h
        · have h1 : p.1 ∈ t2.map Prod.fst := List.mem_map_of_mem Prod.fst h
          rw [← htl] at h1
          exact (List.nodup_cons.mp (by simpa using hnd)).1 h1
      subst hpq
      have hnd' : (t1.map Prod.fst).Nodup := (List.nodup_cons.mp (by simpa using hnd)).2
      rw [ih hp.cons_inv hnd' htl]

/-- Sorting by key is insensitive to the input order when keys are distinct. -/
lemma mergeSort_eq_of_perm_nodupKeys {l1 l2 : List (String × String)}
    (hp : l1.Perm l2) (hnd : (l1.map Prod.fst).Nodup) :
    l1.mergeSort fieldLe = l2.mergeSort fieldLe := by
  have hperm : (l1.mergeSort fieldLe).Perm (l2.mergeSort fieldLe) :=
    (List.mergeSort_perm l1 fieldLe).trans (hp.trans (List.mergeSort_perm l2 fieldLe).symm)
  have hs1 := @List.sorted_mergeSort (String × String) fieldLe fieldLe_trans fieldLe_total l1
  have hs2 := @List.sorted_mergeSort (String × String) fieldLe fieldLe_trans fieldLe_total l2
  have hm1 : List.Sorted (α := String) (· ≤ ·) ((l1.mergeSort fieldLe).map Prod.fst) :=
    List.pairwise_map.mpr (hs1.imp fun h => by
      simpa [fieldLe, decide_eq_true_eq] using h)
  have hm2 : List.Sorted (α := String) (· ≤ ·) ((l2.mergeSort fieldLe).map Prod.fst) :=
    List.pairwise_map.mpr (hs2.imp fun h => by
      simpa [fieldLe, decide_eq_true_eq] using h)
  have hmapeq : (l1.mergeSort fieldLe).map Prod.fst = (l2.mergeSort fieldLe).map Prod.fst :=
    List.eq_of_perm_of_sorted (hperm.map Prod.fst) hm1 hm2
  have hnd1 : ((l1.mergeSort fieldLe).map Prod.fst).Nodup :=
    (((List.mergeSort_perm l1 fieldLe).map Prod.fst).nodup_iff).mpr (by
      simpa [List.map_map] using hnd)
  exact eq_of_perm_of_map_fst_eq hperm hnd1 hmapeq

/-- Reordering the entries of a record (distinct keys) leaves its canonical
serialization unchanged: sort_keys=True normalizes the order. -/
lemma dumpRecord_perm (ev1 ev2 : Record) (hp : List.Perm ev1 ev2)
    (hnd : (List.map Prod.fst ev1).Nodup) : dumpRecord ev1 = dumpRecord ev2 := by
  unfold dumpRecord
  simp only [dumpJson]
  have hdp : (dumpPairs ev1).Perm (dumpPairs ev2) := by
    rw [dumpPairs_eq_map, dumpPairs_eq_map]
    exact hp.map _
  have hnd' : ((dumpPairs ev1).map Prod.fst).Nodup := by
    rw [dumpPairs_eq_map, List.map_map]
    exact hnd
  rw [mergeSort_eq_of_perm_nodupKeys hdp hnd']

/-- C3 (amended): the fingerprint is the SHA-256 hex digest of the UTF-8
bytes of the key-sorted JSON serialization; it is invariant under the
record's original key insertion order, and byte-identical canonical
serializations give equal fingerprints.  (The converse implication of the
original claim is refuted separately.) -/
theorem c3_fingerprint_determinism :
    (∀ ev : Record, eventHash ev = natToHex64 (sha256Nat (utf8Bytes (dumpRecord ev)))) ∧
    (∀ ev1 ev2 : Record, List.Perm ev1 ev2 → (ev1.map Prod.fst).Nodup →
        dumpRecord ev1 = dumpRecord ev2 ∧ eventHash ev1 = eventHash ev2) ∧
    (∀ ev1 ev2 : Record, dumpRecord ev1 = dumpRecord ev2 →
        eventHash ev1 = eventHash ev2) := by
  refine ⟨fun _ => rfl, ?_, ?_⟩
  · intro ev1 ev2 hp hnd
    have hd := dumpRecord_perm ev1 ev2 hp hnd
    refine ⟨hd, ?_⟩
    unfold eventHash
    rw [hd]
  · intro ev1 ev2 hd
    unfold eventHash
    rw [hd]

/-- C3 witness: a two-field record serialized and hashed identically in both
insertion orders. -/
theorem c3_witness :
    dumpRecord [("a", Json.num 1), ("b", Json.num 2)] =
      dumpRecord [("b", Json.num 2), ("a", Json.num 1)] ∧
    eventHash [("a", Json.num 1), ("b", Json.num 2)] =
      eventHash [("b", Json.num 2), ("a", Json.num 1)] :=
  c3_fingerprint_determinism.2.1 [("a", Json.num 1), ("b", Json.num 2)]
    [("b", Json.num 2), ("a", Json.num 1)]
    (List.Perm.swap ("b", Json.num 2) ("a", Json.num 1) []) (by decide)

/-! Pigeonhole refutation of digest injectivity. -/

/-- The family of records separating the counterexample: one key, a string
value of i letters. -/
def recOfNat (i : Nat) : Record :=
  [("k", Json.str (String.mk (List.replicate i 'a')))]

lemma foldl_word_lt (l : List Nat) : ∀ a k : Nat, a < 4294967296 ^ k →
    l.foldl (fun acc w => acc * 4294967296 + w32 w) a < 4294967296 ^ (k + l.length) := by
  induction l with
  | nil =>
    intro a k ha
    simpa using ha
  | cons w t ih =>
    intro a k ha
    have hw : w32 w < 4294967296 := Nat.mod_lt _ (by norm_num)
    have h1 : a * 4294967296 ≤ (4294967296 ^ k - 1) * 4294967296 :=
      Nat.mul_le_mul_right _ (Nat.le_pred_of_lt ha)
    have hpos : 0 < 4294967296 ^ k := Nat.pos_pow_of_pos k (by norm_num)
    have hpow : (4294967296 : Nat) ^ (k + 1) = 4294967296 ^ k * 4294967296 :=
      pow_succ _ _
    have hstep : a * 4294967296 + w32 w < 4294967296 ^ (k + 1) := by omega
    have := ih _ _ hstep
    have harr : k + 1 + t.length = k + (t.length + 1) := by omega
    rw [harr] at this
    simpa using this

lemma sha256Nat_lt (msg : List Nat) : sha256Nat msg < 2 ^ 256 := by
  have h := foldl_word_lt (digestWordList (sha256Words msg)) 0 0 (by norm_num)
  have hlen : (digestWordList (sha256Words msg)).length = 8 := rfl
  rw [hlen] at h
  have hpow : (4294967296 : Nat) ^ (0 + 8) = 2 ^ 256 := by norm_num
  rw [hpow] at h
  exact h

lemma foldl_append_len (l : List String) : ∀ a : String,
    (l.foldl (· ++ ·) a).length = a.length + (l.map String.length).sum := by
  induction l with
  | nil => intro a; simp
  | cons x t ih =>
    intro a
    simp [ih, String.length_append]
    omega

lemma join_len (l : List String) : (String.join l).length = (l.map String.length).sum := by
  unfold String.join
  simpa using foldl_append_len l ""

lemma intercalate_singleton (x : String) : String.intercalate ", " [x] = x := by
  simp [String.intercalate, String.intercalate.go]

lemma encJsonString_rep_len (i : Nat) :
    (encJsonString (String.mk (List.replicate i 'a'))).length = 2 + i := by
  unfold encJsonString
  rw [String.length_append, String.length_append]
  have hdata : (String.mk (List.replicate i 'a')).data = List.replicate i 'a' := rfl
  rw [hdata, join_len, List.map_map, List.map_replicate]
  have hone : (String.length ∘ encJsonChar) 'a' = 1 := rfl
  rw [hone]
  have hq : ("\"" : String).length = 1 := rfl
  rw [hq, List.sum_replicate, smul_eq_mul]
  omega

lemma dumpRecord_recOfNat_len (i : Nat) :
    (dumpRecord (recOfNat i)).length = 9 + i := by
  unfold dumpRecord recOfNat
  simp only [dumpJson, dumpPairs, List.mergeSort_singleton, List.map_cons, List.map_nil]
  rw [intercalate_singleton]
  unfold renderField
  simp only [dumpJson]
  rw [String.length_append, String.length_append, String.length_append,
    String.length_append]
  have h1 : (encJsonString "k").length = 3 := rfl
  have h2 : ("\x7b" : String).length = 1 := rfl
  have h3 : ("\x7d" : String).length = 1 := rfl
  have h4 : (": " : String).length = 2 := rfl
  rw [h1, h2, h3, h4, encJsonString_rep_len]
  omega

/-- C3 counterexample: equal fingerprints do not force byte-identical
canonical serializations.  There are more records than 256-bit digests, so
some two records with different canonical serializations share a digest. -/
theorem c3_counterexample :
    ¬ (∀ ev1 ev2 : Record, eventHash ev1 = eventHash ev2 →
        dumpRecord ev1 = dumpRecord ev2) := by
  intro hinj
  have hcard : Fintype.card (Fin (2 ^ 256)) < Fintype.card (Fin (2 ^ 256 + 1)) := by
    simp only [Fintype.card_fin]
    omega
  obtain ⟨i, j, hne, heq⟩ := Fintype.exists_ne_map_eq_of_card_lt
    (fun i : Fin (2 ^ 256 + 1) =>
      (⟨sha256Nat (utf8Bytes (dumpRecord (recOfNat i.val))),
        sha256Nat_lt _⟩ : Fin (2 ^ 256)))
    hcard
  have hsha : sha256Nat (utf8Bytes (dumpRecord (recOfNat i.val))) =
      sha256Nat (utf8Bytes (dumpRecord (recOfNat j.val))) := congrArg Fin.val heq
  have hhash : eventHash (recOfNat i.val) = eventHash (recOfNat j.val) := by
    unfold eventHash
    rw [hsha]
  have hlen := congrArg String.length (hinj _ _ hhash)
  rw [dumpRecord_recOfNat_len, dumpRecord_recOfNat_len] at hlen
  exact hne (Fin.ext (by omega))

end DbServices
